import Mathlib

/-!
Verification of the sqlq data-access layer (query.go, tx part of query.go).

The development shallowly embeds the two core components of the repository:
the `Query` statement executor with its typed value decoder, and the `Tx`
reentrant transaction manager.  External collaborators (the pgx driver, the
connection pool, `time.Parse`, `strconv.ParseFloat`, `fmt.Sprintf`) are
modelled at their interface boundary: the driver response to an `Exec` or
`Select` call is passed in explicitly, and per-connection type information
is an `Env` record of pure functions.

Go interface values decoded from the wire are modelled by the closed tagged
variant type `PgValue` (null, booleans, signed/unsigned integers of each
width, floats, strings, byte sequences, timestamps, and the array shapes
the decoder matches on).  Float payloads are modelled as exact rationals;
all conversions the repository performs on floats (comparison with zero,
truncation towards zero, widening) are sign- and zero-faithful under this
model.  Go byte strings are bridged to Lean strings code-point-wise, which
is exact on ASCII data.
-/

/-- A Go `time.Time` value, reduced to its instant: nanoseconds relative to
the zero time instant.  The zero value of `time.Time` is `⟨0⟩`. -/
structure GoTime where
  nanos : Int
deriving DecidableEq, Repr

/-- Closed variant model of the dynamic (`interface\x7b\x7d`) values produced by the
driver and matched on by the typed accessors in query.go. -/
inductive PgValue where
  | null
  | bool (b : Bool)
  | i (d : Int)
  | i8 (d : Int)
  | i16 (d : Int)
  | i32 (d : Int)
  | i64 (d : Int)
  | u (d : Nat)
  | u8 (d : Nat)
  | u16 (d : Nat)
  | u32 (d : Nat)
  | u64 (d : Nat)
  | f32 (d : ℚ)
  | f64 (d : ℚ)
  | str (s : String)
  | bytes (bs : List Nat)
  | time (t : GoTime)
  | pgText (s : String)
  | pgVarchar (s : String)
  | strSlice (xs : List String)
  | textArray (xs : List String)
  | varcharArray (xs : List String)
  | timeSlice (ts : List GoTime)
  | timestampArray (ts : List GoTime)
  | timestamptzArray (ts : List GoTime)
  | int2Array (xs : List Int)
  | int4Array (xs : List Int)
  | int8Array (xs : List Int)
deriving DecidableEq, Repr

/-- A column description as produced by the driver
(`pgproto3.FieldDescription`): name bytes and the declared type OID. -/
structure FieldDescription where
  name : String
  dataTypeOID : Nat
deriving DecidableEq, Repr

/-- A `pgconn.CommandTag`: the raw tag bytes plus the row count its
`RowsAffected()` method parses out of them (external collaborator, modelled
at the boundary). -/
structure CommandTag where
  raw : String
  rowsAffected : Int
deriving DecidableEq, Repr

/-- The driver row cursor (`pgx.Rows`), modelled as pure data: the column
directory, the rows not yet delivered by `Next`, the current row, the error
`Values()` would report, the command tag available after close, and the
error `Err()` reports after `Close`. -/
structure Rows where
  descs : List FieldDescription
  pending : List (List PgValue)
  current : List PgValue
  valuesErr : Option String
  tag : CommandTag
  closeErr : Option String
deriving DecidableEq, Repr

/-- `rows.Next()`: advance to the next row; false once exhausted. -/
def Rows.next (r : Rows) : Rows × Bool :=
  match r.pending with
  | [] => (r, false)
  | v :: rest => ({ r with current := v, pending := rest }, true)

/-- `rows.Values()`: the decoded values of the current row, or an error. -/
def Rows.values (r : Rows) : List PgValue × Option String :=
  match r.valuesErr with
  | some e => ([], some e)
  | none => (r.current, none)

/-- A type descriptor from the connection type map (`pgtype.DataType`). -/
structure DataType where
  oid : Nat
  name : String
deriving DecidableEq, Repr

/-- External collaborators reached from the decoder, modelled as pure
functions at the interface boundary: pool acquisition outcome, the
per-connection OID-to-type lookup (`ConnInfo().DataTypeForOID`), Go
`time.Parse` (format, value), `strconv.ParseFloat(s, 64)`, and
`fmt.Sprintf` with verb `v`. -/
structure Env where
  acquireOk : Bool
  dataTypeForOID : Nat → Option DataType
  parseTime : String → String → Option GoTime
  parseFloat : String → Option ℚ
  sprintfV : PgValue → String

/-- `pgtype.TimeOID`: the PostgreSQL time-of-day type OID. -/
def timeOID : Nat := 1083

/-- `pgtype.Int8OID`: the PostgreSQL bigint type OID. -/
def int8OID : Nat := 20

/-- Go map assignment `m[k] = v`: replace the binding if the key is
present, otherwise append it. -/
def mapInsert : List (String × Nat) → String → Nat → List (String × Nat)
  | [], k, v => [(k, v)]
  | (k', v') :: rest, k, v =>
      if k' = k then (k, v) :: rest else (k', v') :: mapInsert rest k v

/-- Go map lookup `m[k]`. -/
def mapLookup (m : List (String × Nat)) (k : String) : Option Nat :=
  (m.find? (fun p => p.1 = k)).map (fun p => p.2)

/-- Two to the sixty-third power, the signed 64-bit bound. -/
def two63 : Int := 9223372036854775808

/-- Go conversion to `int64`/`int`: wrap into the signed 64-bit range. -/
def wrap64 (d : Int) : Int := (d + two63) % (2 * two63) - two63

/-- Go conversion to `uint64`: wrap into the unsigned 64-bit range. -/
def wrapU64 (d : Int) : Int := d % (2 * two63)

/-- Go float-to-integer conversion: truncation towards zero. -/
def ratTrunc (d : ℚ) : Int := if 0 ≤ d then d.floor else d.ceil

/-- `strconv.ParseInt(s, 10, 64)`: optional sign, decimal digits, 64-bit
signed range check; `none` models a non-nil parse error. -/
def parseInt64 (s : String) : Option Int :=
  let p : Int × List Char :=
    match s.data with
    | '-' :: rest => (-1, rest)
    | '+' :: rest => (1, rest)
    | cs => (1, cs)
  if p.2.isEmpty then none
  else if p.2.all Char.isDigit then
    let n : Int := p.1 * (p.2.foldl (fun acc c => acc * 10 + (c.toNat - 48)) 0 : Nat)
    if -two63 ≤ n ∧ n < two63 then some n else none
  else none

/-- Value of one hexadecimal digit character, as in encoding/hex. -/
def hexDigitVal (c : Char) : Option Nat :=
  if ('0' ≤ c ∧ c ≤ '9') then some (c.toNat - 48)
  else if ('a' ≤ c ∧ c ≤ 'f') then some (c.toNat - 87)
  else if ('A' ≤ c ∧ c ≤ 'F') then some (c.toNat - 55)
  else none

/-- Pairwise hex decoding of a character list; odd length or a bad digit is
an error, as in `hex.DecodeString`. -/
def hexPairs : List Char → Option (List Nat)
  | [] => some []
  | [_] => none
  | c1 :: c2 :: rest =>
      match hexDigitVal c1, hexDigitVal c2, hexPairs rest with
      | some h, some l, some bs => some ((16 * h + l) :: bs)
      | _, _, _ => none

/-- `hex.DecodeString` on the code-point bridge of a Go string. -/
def hexDecode (s : String) : Option (List Nat) := hexPairs s.data

/-- Go `string(b)` for a byte slice, bridged code-point-wise. -/
def bytesToString (bs : List Nat) : String := (bs.map Char.ofNat).asString

/-- Go `[]byte(s)` for a string, bridged code-point-wise. -/
def stringToBytes (s : String) : List Nat := s.data.map Char.toNat

/-- ASCII lower-casing of one character, the fragment of the Unicode
simple case mapping that `strings.ToLower` applies to ASCII names. -/
def charToLower (c : Char) : Char :=
  if 65 ≤ c.toNat ∧ c.toNat ≤ 90 then Char.ofNat (c.toNat + 32) else c

/-- `strings.ToLower`, modelled character-wise (exact on ASCII data). -/
def strToLower (s : String) : String := (s.data.map charToLower).asString

/-- The `Query` statement executor state (query.go): the optional row
cursor, the stored command tag, the lower-cased column-name-to-position
map, and the last-row snapshot captured at `Close`.  The pool handle,
transaction reference and context are opaque external handles and carry no
state the embedded operations read. -/
structure Query where
  rows : Option Rows
  tag : CommandTag
  fields : List (String × Nat)
  lastValues : List PgValue
  lastDescriptions : List FieldDescription
deriving DecidableEq, Repr

/-- `NewQuery`: fresh pool-bound query (`tag` is the empty byte slice,
whose parsed row count is 0). -/
def freshQuery : Query :=
  { rows := none
    tag := { raw := "", rowsAffected := 0 }
    fields := []
    lastValues := []
    lastDescriptions := [] }

/-- `Query.Fields`: the live column directory, or after close the captured
snapshot when it is non-empty. -/
def Query.fieldsFn (q : Query) : List FieldDescription :=
  match q.rows with
  | none => if q.lastDescriptions.length = 0 then [] else q.lastDescriptions
  | some r => r.descs

/-- `Query.FieldName`: field name by index; empty when no live cursor or
the index is out of range. -/
def Query.fieldName (q : Query) (index : Int) : String :=
  if q.rows.isNone ∨ index < 0 ∨ (q.fieldsFn.length : Int) ≤ index then ""
  else (q.fieldsFn.getD index.toNat { name := "", dataTypeOID := 0 }).name

/-- `Query.FieldTypeIndex`: resolved type OID by index via the connection
type map; 0 when no live cursor, out of range, acquisition fails, or the
OID is not registered. -/
def Query.fieldTypeIndex (env : Env) (q : Query) (index : Int) : Nat :=
  if q.rows.isNone ∨ index < 0 ∨ (q.fieldsFn.length : Int) ≤ index then 0
  else if !env.acquireOk then 0
  else
    match env.dataTypeForOID
        (q.fieldsFn.getD index.toNat { name := "", dataTypeOID := 0 }).dataTypeOID with
    | none => 0
    | some dt => dt.oid

/-- `Query.FieldTypeNameIndex`: resolved type name by index; empty on any
lookup failure. -/
def Query.fieldTypeNameIndex (env : Env) (q : Query) (index : Int) : String :=
  if q.rows.isNone ∨ index < 0 ∨ (q.fieldsFn.length : Int) ≤ index then ""
  else if !env.acquireOk then ""
  else
    match env.dataTypeForOID
        (q.fieldsFn.getD index.toNat { name := "", dataTypeOID := 0 }).dataTypeOID with
    | none => ""
    | some dt => dt.name

/-- `Query.FieldType`: type OID by name.  The supplied name is looked up in
the field map as written, without lower-casing. -/
def Query.fieldType (env : Env) (q : Query) (name : String) : Nat :=
  match mapLookup q.fields name with
  | some index => q.fieldTypeIndex env (index : Int)
  | none => 0

/-- `Query.FieldTypeName`: type name by name; again without lower-casing
the supplied name. -/
def Query.fieldTypeName (env : Env) (q : Query) (name : String) : String :=
  match mapLookup q.fields name with
  | some index => q.fieldTypeNameIndex env (index : Int)
  | none => ""

/-- `Query.Contains`: whether the lower-cased name is in the field map. -/
def Query.contains (q : Query) (field : String) : Bool :=
  (mapLookup q.fields (strToLower field)).isSome

/-- `Query.Values`: the current row values from the live cursor, or after
close the snapshot (when a column directory was captured). -/
def Query.valuesFn (q : Query) : List PgValue × Option String :=
  match q.rows with
  | none =>
      if q.lastDescriptions.length = 0 then ([], none) else (q.lastValues, none)
  | some r => r.values

/-- `Query.Value`: field value by lower-cased name; Go `nil` (missing
column, `Values` error, or short row) is `.null`. -/
def Query.value (q : Query) (field : String) : PgValue :=
  match mapLookup q.fields (strToLower field) with
  | none => .null
  | some pos =>
      let v := q.valuesFn
      if v.2.isSome ∨ v.1.length ≤ pos then .null
      else v.1.getD pos .null

/-- `Query.ValueIndex`: field value by index; nil when no live cursor or
out of range. -/
def Query.valueIndex (q : Query) (fieldIndex : Int) : PgValue :=
  if q.rows.isNone ∨ fieldIndex < 0 ∨ (q.fields.length : Int) ≤ fieldIndex then .null
  else
    let v := q.valuesFn
    if v.2.isSome ∨ (v.1.length : Int) ≤ fieldIndex then .null
    else v.1.getD fieldIndex.toNat .null

/-- `Query.Next`: advance the cursor; false when no cursor is active. -/
def Query.next (q : Query) : Query × Bool :=
  match q.rows with
  | none => (q, false)
  | some r =>
      let p := r.next
      ({ q with rows := some p.1 }, p.2)

/-- `Query.Close`: capture the last-row snapshot (`Values` result and
column directory), release the cursor, and surface the close-time error. -/
def Query.close (q : Query) : Query × Option String :=
  match q.rows with
  | none => (q, none)
  | some r =>
      ({ q with
          lastValues := (r.values).1
          lastDescriptions := r.descs
          rows := none },
        r.closeErr)

/-- `Query.RowsAffected`: when a cursor is active, close it and return the
cursor command tag row count; otherwise 0.  The stored command tag of an
`Exec` is never consulted. -/
def Query.rowsAffected (q : Query) : Int :=
  match q.rows with
  | some r => r.tag.rowsAffected
  | none => 0

/-- `Query.IsSelect`. -/
def Query.isSelect (q : Query) : Bool := q.rows.isSome

/-- `Query.IsCommand`: whether the stored tag is non-empty. -/
def Query.isCommand (q : Query) : Bool := decide (0 < q.tag.raw.length)

/-- `Query.Exec`: clear previous state, then record the driver response
(tag assignment and wrapped error) of the command. -/
def Query.exec (q : Query) (driver : CommandTag × Option String) :
    Query × Option String :=
  ({ q with
      rows := none
      lastValues := []
      lastDescriptions := []
      fields := []
      tag := driver.1 },
    driver.2)

/-- `Query.Select`: clear previous state; on driver failure discard the
cursor and return the wrapped error; on success store the cursor and build
the lower-cased column-name-to-position map from the column directory. -/
def Query.select (q : Query) (driver : Except String Rows) :
    Query × Option String :=
  let q0 : Query :=
    { q with
        tag := { raw := "", rowsAffected := 0 }
        fields := []
        lastValues := []
        lastDescriptions := [] }
  match driver with
  | .error e => ({ q0 with rows := none }, some e)
  | .ok r =>
      ({ q0 with
          rows := some r
          fields := r.descs.enum.foldl
            (fun m p => mapInsert m (strToLower p.2.name) p.1) [] },
        none)

/-- Decidable equality of decoder results, for concrete evaluation. -/
instance {e a : Type} [DecidableEq e] [DecidableEq a] : DecidableEq (Except e a) := fun x y =>
  match x, y with
  | .error u, .error v => decidable_of_iff (u = v) (by simp)
  | .error _, .ok _ => isFalse (by simp)
  | .ok _, .error _ => isFalse (by simp)
  | .ok u, .ok v => decidable_of_iff (u = v) (by simp)

/-- The integer target kinds `intConvertHelper` is instantiated at in the
repository: `int` and `int64` are signed 64-bit, `uint64` unsigned. -/
inductive IntKind where
  | signed64
  | unsigned64
deriving DecidableEq, Repr

/-- Go conversion `T(d)` for the integer target kind. -/
def IntKind.conv : IntKind → Int → Int
  | .signed64, d => wrap64 d
  | .unsigned64, d => wrapU64 d

/-- `intConvertHelper[T]`: nil is zero; booleans map to 1/0; every native
integer and float width converts numerically; strings parse as base-10
64-bit integers; everything else falls through to `panic("can\x27t convert")`,
modelled as `.error`. -/
def intConvertHelper (kind : IntKind) (v : PgValue) : Except String Int :=
  match v with
  | .null => .ok (kind.conv 0)
  | .bool b => .ok (if b then 1 else 0)
  | .i d => .ok (kind.conv d)
  | .i8 d => .ok (kind.conv d)
  | .i16 d => .ok (kind.conv d)
  | .i32 d => .ok (kind.conv d)
  | .i64 d => .ok (kind.conv d)
  | .u d => .ok (kind.conv (d : Int))
  | .u8 d => .ok (kind.conv (d : Int))
  | .u16 d => .ok (kind.conv (d : Int))
  | .u32 d => .ok (kind.conv (d : Int))
  | .u64 d => .ok (kind.conv (d : Int))
  | .f32 d => .ok (kind.conv (ratTrunc d))
  | .f64 d => .ok (kind.conv (ratTrunc d))
  | .str s =>
      match parseInt64 s with
      | some r => .ok (kind.conv r)
      | none => .error ("can\x27t convert")
  | _ => .error ("can\x27t convert")

/-- `Query.Int64`: unknown column aborts; nil is 0; otherwise the shared
integer conversion at the signed 64-bit target. -/
def Query.getInt64 (q : Query) (field : String) : Except String Int :=
  if !q.contains field then .error ("can\x27t find field " ++ field)
  else
    match q.value field with
    | .null => .ok 0
    | v => intConvertHelper .signed64 v

/-- `Query.UInt64`: as `Int64` at the unsigned 64-bit target. -/
def Query.getUInt64 (q : Query) (field : String) : Except String Int :=
  if !q.contains field then .error ("can\x27t find field " ++ field)
  else
    match q.value field with
    | .null => .ok 0
    | v => intConvertHelper .unsigned64 v

/-- `Query.Int`: Go `int` is 64-bit here, so the signed 64-bit target. -/
def Query.getInt (q : Query) (field : String) : Except String Int :=
  if !q.contains field then .error ("can\x27t find field " ++ field)
  else
    match q.value field with
    | .null => .ok 0
    | v => intConvertHelper .signed64 v

/-- `Query.Bool`: nil is false; native booleans pass through; every native
numeric width is strictly-positive truthiness; the strings true/yes and
false/no (lower-cased) decode; anything else aborts. -/
def Query.getBool (q : Query) (field : String) : Except String Bool :=
  if !q.contains field then .error ("can\x27t find field " ++ field)
  else
    match q.value field with
    | .null => .ok false
    | .bool b => .ok b
    | .i d => .ok (decide (0 < d))
    | .i8 d => .ok (decide (0 < d))
    | .i16 d => .ok (decide (0 < d))
    | .i32 d => .ok (decide (0 < d))
    | .i64 d => .ok (decide (0 < d))
    | .u d => .ok (decide (0 < d))
    | .u8 d => .ok (decide (0 < d))
    | .u16 d => .ok (decide (0 < d))
    | .u32 d => .ok (decide (0 < d))
    | .u64 d => .ok (decide (0 < d))
    | .f32 d => .ok (decide (0 < d))
    | .f64 d => .ok (decide (0 < d))
    | .str s =>
        let s' := strToLower s
        if s' = "true" ∨ s' = "yes" then .ok true
        else if s' = "false" ∨ s' = "no" then .ok false
        else .error ("can\x27t convert to bool: " ++ field)
    | _ => .error ("can\x27t convert to bool: " ++ field)

/-- `Query.Float64`: nil is 0; booleans map to 1/0; native numeric widths
widen (exactly, in the rational float model); strings go through
`strconv.ParseFloat`; anything else aborts. -/
def Query.getFloat64 (q : Query) (env : Env) (field : String) : Except String ℚ :=
  if !q.contains field then .error ("can\x27t find field " ++ field)
  else
    match q.value field with
    | .null => .ok 0
    | .bool b => .ok (if b then 1 else 0)
    | .i d => .ok (d : ℚ)
    | .i8 d => .ok (d : ℚ)
    | .i16 d => .ok (d : ℚ)
    | .i32 d => .ok (d : ℚ)
    | .i64 d => .ok (d : ℚ)
    | .u d => .ok (d : ℚ)
    | .u8 d => .ok (d : ℚ)
    | .u16 d => .ok (d : ℚ)
    | .u32 d => .ok (d : ℚ)
    | .u64 d => .ok (d : ℚ)
    | .f32 d => .ok d
    | .f64 d => .ok d
    | .str s =>
        match env.parseFloat s with
        | some r => .ok r
        | none => .error ("can\x27t convert to float: " ++ field)
    | _ => .error ("can\x27t convert to float: " ++ field)

/-- Go `float32(x)` on a float64: in the rational float model the
narrowing is the identity; it preserves zero and sign exactly, which is
all the repository relies on. -/
def float32of (d : ℚ) : ℚ := d

/-- `Query.Float32`: `float32(q.Float64(field))`. -/
def Query.getFloat32 (q : Query) (env : Env) (field : String) : Except String ℚ :=
  (q.getFloat64 env field).map float32of

/-- `Query.String`: nil is empty; strings and pgtype text values pass
through; byte slices are hex-decoded when possible, else taken raw; any
other value is rendered by the generic format fallback (never fails). -/
def Query.getString (q : Query) (env : Env) (field : String) : Except String String :=
  if !q.contains field then .error ("can\x27t find field " ++ field)
  else
    match q.value field with
    | .null => .ok ""
    | .str s => .ok s
    | .pgText s => .ok s
    | .pgVarchar s => .ok s
    | .bytes bs =>
        match hexDecode (bytesToString bs) with
        | none => .ok (bytesToString bs)
        | some b => .ok (bytesToString b)
    | v => .ok (env.sprintfV v)

/-- `Query.Json`: the raw value. -/
def Query.getJson (q : Query) (field : String) : PgValue := q.value field

/-- `Query.IsNull`: unknown column aborts; otherwise whether the value is
nil. -/
def Query.isNull (q : Query) (field : String) : Except String Bool :=
  if !q.contains field then .error ("can\x27t find field " ++ field)
  else .ok (decide (q.value field = .null))

/-- `Query.Time`: nil is the zero time; native timestamps pass through;
strings parse with one of three fixed layouts picked by length; native
integer widths are microseconds added to the zero instant via
`time.ParseDuration`, which fails outside the signed 64-bit nanosecond
range; anything else aborts. -/
def Query.getTime (q : Query) (env : Env) (field : String) : Except String GoTime :=
  if !q.contains field then .error ("can\x27t find field " ++ field)
  else
    match q.value field with
    | .null => .ok { nanos := 0 }
    | .time t => .ok t
    | .str s =>
        let f1 := "2006-01-02 15:04:05"
        let f2 := "2006-01-02 15:04:05.000"
        let f3 := "2006-01-02 15:04:05.000 -0700"
        let format := if f1.length < s.length then f2 else f1
        let format := if format.length < s.length then f3 else format
        match env.parseTime format s with
        | some t => .ok t
        | none => .error ("can\x27t convert to time.Time: " ++ field)
    | .i d => goTimeOfMicros field d
    | .i8 d => goTimeOfMicros field d
    | .i16 d => goTimeOfMicros field d
    | .i32 d => goTimeOfMicros field d
    | .i64 d => goTimeOfMicros field d
    | .u d => goTimeOfMicros field (d : Int)
    | .u8 d => goTimeOfMicros field (d : Int)
    | .u16 d => goTimeOfMicros field (d : Int)
    | .u32 d => goTimeOfMicros field (d : Int)
    | .u64 d => goTimeOfMicros field (d : Int)
    | _ => .error ("can\x27t convert to time.Time: " ++ field)
where
  /-- The integer branch: `time.ParseDuration` of `d` microseconds, added
  to the zero instant; out-of-range durations fail and fall to the final
  abort. -/
  goTimeOfMicros (field : String) (d : Int) : Except String GoTime :=
    if -two63 ≤ d * 1000 ∧ d * 1000 < two63 then .ok { nanos := d * 1000 }
    else .error ("can\x27t convert to time.Time: " ++ field)

/-- `Query.Duration` (nanoseconds): unknown column aborts; a zero resolved
field type returns 0; the time-of-day type converts the integer
microseconds (`int64(time.Microsecond) * ms`, wrapping); any other
resolved type aborts. -/
def Query.getDuration (q : Query) (env : Env) (field : String) : Except String Int :=
  if !q.contains field then .error ("can\x27t find field " ++ field)
  else
    let t := q.fieldType env field
    if t = 0 then .ok 0
    else if t = timeOID then
      (q.getInt64 field).map (fun ms => wrap64 (1000 * ms))
    else .error ("can\x27t convert to time.Duration: " ++ field)

/-- `Query.Bytes`: nil is empty; byte slices pass through; strings give
their bytes; anything else aborts. -/
def Query.getBytes (q : Query) (field : String) : Except String (List Nat) :=
  if !q.contains field then .error ("can\x27t find field " ++ field)
  else
    match q.value field with
    | .null => .ok []
    | .bytes bs => .ok bs
    | .str s => .ok (stringToBytes s)
    | _ => .error ("can\x27t convert to []byte: " ++ field)

/-- `Query.StringArray`: nil is empty; native string slices and text array
wire values extract element-wise; a scalar promotes to the one-element
sequence of its `String` reading. -/
def Query.getStringArray (q : Query) (env : Env) (field : String) :
    Except String (List String) :=
  if !q.contains field then .error ("can\x27t find field " ++ field)
  else
    match q.value field with
    | .null => .ok []
    | .strSlice xs => .ok xs
    | .textArray xs => .ok xs
    | .varcharArray xs => .ok xs
    | _ => (q.getString env field).map (fun s => [s])

/-- `Query.TimeArray`: nil is empty; native time slices and timestamp
array wire values extract element-wise; a scalar promotes to the
one-element sequence of its `Time` reading. -/
def Query.getTimeArray (q : Query) (env : Env) (field : String) :
    Except String (List GoTime) :=
  if !q.contains field then .error ("can\x27t find field " ++ field)
  else
    match q.value field with
    | .null => .ok []
    | .timeSlice ts => .ok ts
    | .timestampArray ts => .ok ts
    | .timestamptzArray ts => .ok ts
    | _ => (q.getTime env field).map (fun t => [t])

/-- `intArrayHelper[T]` at the signed 64-bit targets used by `IntArray`
and `IntArray64` (the int16/int32/int64 element widenings are exact):
integer array wire values extract element-wise; a scalar promotes to the
one-element sequence of its `Int` reading. -/
def Query.intArrayHelper (q : Query) (field : String) : Except String (List Int) :=
  if !q.contains field then .error ("can\x27t find field " ++ field)
  else
    match q.value field with
    | .null => .ok []
    | .int2Array xs => .ok xs
    | .int4Array xs => .ok xs
    | .int8Array xs => .ok xs
    | _ => (q.getInt field).map (fun i => [i])

/-- `Query.IntArray`: nil is empty, then the shared array helper. -/
def Query.getIntArray (q : Query) (field : String) : Except String (List Int) :=
  if !q.contains field then .error ("can\x27t find field " ++ field)
  else
    match q.value field with
    | .null => .ok []
    | _ => q.intArrayHelper field

/-- `Query.IntArray64`: identical shape at the `int64` instantiation. -/
def Query.getIntArray64 (q : Query) (field : String) : Except String (List Int) :=
  if !q.contains field then .error ("can\x27t find field " ++ field)
  else
    match q.value field with
    | .null => .ok []
    | _ => q.intArrayHelper field

/-- A physical operation issued to the driver by the transaction manager,
with the isolation level and access mode for a physical begin. -/
inductive PhysOp where
  | begin (iso mode : String)
  | commit
  | rollback
deriving DecidableEq, Repr

/-- A logical operation invoked on the transaction manager. -/
inductive TxOp where
  | begin (iso mode : String)
  | commit
  | rollback
deriving DecidableEq, Repr

/-- The `Tx` reentrant transaction manager state: the nesting counter and
the physical transaction handle (presence only; the pool and context are
opaque external handles). -/
structure Tx where
  counter : Int
  tx : Option Unit
deriving DecidableEq, Repr

/-- `NewTx`: counter 0, no physical transaction. -/
def freshTx : Tx := { counter := 0, tx := none }

/-- `Tx.Level`: the nesting counter. -/
def Tx.level (t : Tx) : Int := t.counter

/-- `Tx.BeginTx`: with a transaction active, increment the counter and
issue nothing; otherwise issue the physical begin, and on success store
the handle and set the counter to one, on driver failure leave the state
unchanged and return the wrapped error.  The result is the new state, the
returned error, and the physical operations issued. -/
def Tx.beginTx (t : Tx) (iso mode : String) (driverErr : Option String) :
    Tx × Option String × List PhysOp :=
  if 0 < t.counter then ({ t with counter := t.counter + 1 }, none, [])
  else
    match driverErr with
    | some e => (t, some e, [.begin iso mode])
    | none => ({ t with tx := some (), counter := t.counter + 1 }, none, [.begin iso mode])

/-- `Tx.Begin`: `BeginTx(pgx.ReadCommitted, pgx.ReadWrite)`. -/
def Tx.beginDefault (t : Tx) (driverErr : Option String) :
    Tx × Option String × List PhysOp :=
  t.beginTx "read committed" "read write" driverErr

/-- `Tx.Commit`: counter 0 is the "no transaction to commit" error;
otherwise decrement, and only when the counter reaches 0 issue the
physical commit, clear the handle, and return its outcome. -/
def Tx.commit (t : Tx) (driverErr : Option String) :
    Tx × Option String × List PhysOp :=
  if t.counter = 0 then (t, some "no transaction to commit", [])
  else
    let t' : Tx := { t with counter := t.counter - 1 }
    if 0 < t'.counter then (t', none, [])
    else ({ t' with tx := none }, driverErr, [.commit])

/-- `Tx.Rollback`: counter 0 is the "no transaction to rollback" error;
otherwise reset the counter to 0, issue the physical rollback, clear the
handle, and return its outcome. -/
def Tx.rollback (t : Tx) (driverErr : Option String) :
    Tx × Option String × List PhysOp :=
  if t.counter = 0 then (t, some "no transaction to rollback", [])
  else ({ t with counter := 0, tx := none }, driverErr, [.rollback])

/-- Dispatch one logical operation with the given driver outcome. -/
def Tx.step (t : Tx) (op : TxOp) (driverErr : Option String) :
    Tx × Option String × List PhysOp :=
  match op with
  | .begin iso mode => t.beginTx iso mode driverErr
  | .commit => t.commit driverErr
  | .rollback => t.rollback driverErr

/-- Run a sequence of logical operations with an always-successful driver,
accumulating the issued physical operations and the returned errors. -/
def Tx.runOk : Tx → List TxOp → Tx × List PhysOp × List (Option String)
  | t, [] => (t, [], [])
  | t, op :: rest =>
      let s := t.step op none
      let r := s.1.runOk rest
      (r.1, s.2.2 ++ r.2.1, s.2.1 :: r.2.2)

/-- The `Begin()` operation (default isolation level and access mode). -/
def beginOp : TxOp := .begin "read committed" "read write"

/-- The structural invariant of the transaction manager: the counter is
non-negative and the physical handle is present exactly when it is
positive. -/
def Tx.inv (t : Tx) : Prop :=
  0 ≤ t.counter ∧ (t.tx.isSome = true ↔ 0 < t.counter)

instance (t : Tx) : Decidable t.inv := by
  unfold Tx.inv
  infer_instance

/-- A fixed external environment for concrete evaluations: acquisition
succeeds, the connection type map resolves the time-of-day and bigint
OIDs to themselves, and the pure parsing collaborators recognise
nothing. -/
def envTest : Env :=
  { acquireOk := true
    dataTypeForOID := fun oid =>
      if oid = timeOID then some { oid := timeOID, name := "time" }
      else if oid = int8OID then some { oid := int8OID, name := "int8" }
      else none
    parseTime := fun _ _ => none
    parseFloat := fun _ => none
    sprintfV := fun _ => "" }

/-- A concrete one-column, one-row bigint result set: column `x` of
declared type bigint holding the value 5. -/
def rows0 : Rows :=
  { descs := [{ name := "x", dataTypeOID := int8OID }]
    pending := [[PgValue.i64 5]]
    current := []
    valuesErr := none
    tag := { raw := "SELECT 1", rowsAffected := 1 }
    closeErr := none }

/-- The query state after a successful `Select` of `rows0`. -/
def qSel : Query := (Query.select freshQuery (.ok rows0)).1

/-- The query state after advancing `qSel` one row. -/
def q1 : Query := (Query.next qSel).1

/-- The cursor held by `q1`, written out. -/
def rows1 : Rows :=
  { descs := [{ name := "x", dataTypeOID := int8OID }]
    pending := []
    current := [PgValue.i64 5]
    valuesErr := none
    tag := { raw := "SELECT 1", rowsAffected := 1 }
    closeErr := none }

/-- A one-column, one-row result set whose single bigint column is null. -/
def rowsNull : Rows :=
  { descs := [{ name := "x", dataTypeOID := int8OID }]
    pending := [[PgValue.null]]
    current := []
    valuesErr := none
    tag := { raw := "SELECT 1", rowsAffected := 1 }
    closeErr := none }

/-- The advanced query over `rowsNull`: column `x` exists and its value is
null, with declared type bigint. -/
def qNull : Query := (Query.next (Query.select freshQuery (.ok rowsNull)).1).1

/-- A one-column, one-row result set: time-of-day column `x` holding
3661000000 microseconds since midnight. -/
def rowsTime : Rows :=
  { descs := [{ name := "x", dataTypeOID := timeOID }]
    pending := [[PgValue.i64 3661000000]]
    current := []
    valuesErr := none
    tag := { raw := "SELECT 1", rowsAffected := 1 }
    closeErr := none }

/-- The advanced query over `rowsTime`. -/
def qTime : Query := (Query.next (Query.select freshQuery (.ok rowsTime)).1).1

/-- The advanced query over a result set whose single bigint column holds
the negative value -3 (for the numeric truthiness evaluation). -/
def qNeg : Query :=
  (Query.next (Query.select freshQuery (.ok
    { descs := [{ name := "x", dataTypeOID := int8OID }]
      pending := [[PgValue.i (-3)]]
      current := []
      valuesErr := none
      tag := { raw := "SELECT 1", rowsAffected := 1 }
      closeErr := none })).1).1

/-- The numeric payload of a driver value, mapped into the rationals
(integers and floats of every width); `none` for non-numeric values. -/
def PgValue.numericValue : PgValue → Option ℚ
  | .i d => some (d : ℚ)
  | .i8 d => some (d : ℚ)
  | .i16 d => some (d : ℚ)
  | .i32 d => some (d : ℚ)
  | .i64 d => some (d : ℚ)
  | .u d => some (d : ℚ)
  | .u8 d => some (d : ℚ)
  | .u16 d => some (d : ℚ)
  | .u32 d => some (d : ℚ)
  | .u64 d => some (d : ℚ)
  | .f32 d => some d
  | .f64 d => some d
  | _ => none

/-- Running a concatenation of operation sequences composes the final
state and concatenates the physical traces and error lists. -/
theorem Tx.runOk_append (xs : List TxOp) (ys : List TxOp) (t : Tx) :
    Tx.runOk t (xs ++ ys) =
      ((Tx.runOk (Tx.runOk t xs).1 ys).1,
        (Tx.runOk t xs).2.1 ++ (Tx.runOk (Tx.runOk t xs).1 ys).2.1,
        (Tx.runOk t xs).2.2 ++ (Tx.runOk (Tx.runOk t xs).1 ys).2.2) := by
  induction xs generalizing t with
  | nil => simp [Tx.runOk]
  | cons op rest ih =>
      simp [Tx.runOk, ih, List.append_assoc]

/-- With a transaction already active, a run of `Begin` calls only
increments the counter: no physical operation, no error. -/
theorem Tx.runOk_beginRep (k : Nat) (c : Int) (hc : 0 < c) (h : Option Unit) :
    Tx.runOk ⟨c, h⟩ (List.replicate k beginOp) =
      (⟨c + k, h⟩, [], List.replicate k (none : Option String)) := by
  induction k generalizing c with
  | zero => simp [Tx.runOk]
  | succ k ih =>
      have hstep : Tx.step ⟨c, h⟩ beginOp none = (⟨c + 1, h⟩, none, []) := by
        simp [Tx.step, beginOp, Tx.beginTx, hc]
      rw [List.replicate_succ]
      simp only [Tx.runOk, hstep]
      rw [ih (c + 1) (by omega)]
      simp [List.replicate_succ, Tx.mk.injEq]
      omega

/-- A run of `Commit` calls strictly shorter than the nesting depth only
decrements the counter: no physical operation, no error. -/
theorem Tx.runOk_commitRep (i : Nat) (c : Int) (hic : (i : Int) < c) (h : Option Unit) :
    Tx.runOk ⟨c, h⟩ (List.replicate i TxOp.commit) =
      (⟨c - i, h⟩, [], List.replicate i (none : Option String)) := by
  induction i generalizing c with
  | zero => simp [Tx.runOk]
  | succ i ih =>
      have hc0 : ¬ (c = 0) := by push_cast at hic; omega
      have hpos : 0 < c - 1 := by push_cast at hic; omega
      have hstep : Tx.step ⟨c, h⟩ TxOp.commit none = (⟨c - 1, h⟩, none, []) := by
        simp [Tx.step, Tx.commit, hc0, hpos]
      rw [List.replicate_succ]
      simp only [Tx.runOk, hstep]
      rw [ih (c - 1) (by push_cast at hic ⊢; omega)]
      simp [List.replicate_succ, Tx.mk.injEq]
      omega

/-- The very first `Begin` on a fresh manager issues the one physical
begin and sets the counter to 1 with the handle stored; the following
`k` nested begins are counter increments only. -/
theorem Tx.runOk_beginFresh (k : Nat) :
    Tx.runOk freshTx (List.replicate (k + 1) beginOp) =
      (⟨1 + k, some ()⟩, [PhysOp.begin "read committed" "read write"],
        List.replicate (k + 1) (none : Option String)) := by
  have hstep : Tx.step freshTx beginOp none =
      (⟨1, some ()⟩, none, [PhysOp.begin "read committed" "read write"]) := by
    simp [Tx.step, beginOp, Tx.beginTx, freshTx]
  rw [List.replicate_succ]
  simp only [Tx.runOk, hstep]
  rw [Tx.runOk_beginRep k 1 (by omega) (some ())]
  simp [List.replicate_succ, Tx.mk.injEq]

/-- A commit at depth exactly 1 issues the one physical commit, clears the
handle, and zeroes the counter. -/
theorem Tx.runOk_commitLast (c : Int) (hh : Option Unit) (hc1 : c = 1) :
    Tx.runOk ⟨c, hh⟩ [TxOp.commit] = (⟨0, none⟩, [PhysOp.commit], [none]) := by
  subst hc1
  simp [Tx.runOk, Tx.step, Tx.commit]

/-- Claim C5: for every N ≥ 1, N `Begin` calls followed by N `Commit`
calls on one `Tx` (no rollback, the driver succeeding) issue exactly one
physical begin and exactly one physical commit, every call returns
success, and after the N begins and i < N commits the level is N - i,
still positive — so `Level()` is 0 only after the Nth matching commit,
and intermediate commits only decrement the counter. -/
theorem c5_nesting_symmetry (n i : Nat) (hn : 1 ≤ n) (hi : i < n) :
    (Tx.runOk freshTx (List.replicate n beginOp ++ List.replicate n TxOp.commit)).2.1 =
        [PhysOp.begin "read committed" "read write", PhysOp.commit]
  ∧ (Tx.runOk freshTx (List.replicate n beginOp ++ List.replicate n TxOp.commit)).1.level = 0
  ∧ (Tx.runOk freshTx (List.replicate n beginOp ++ List.replicate n TxOp.commit)).2.2 =
        List.replicate (n + n) (none : Option String)
  ∧ (Tx.runOk freshTx (List.replicate n beginOp ++ List.replicate i TxOp.commit)).2.1 =
        [PhysOp.begin "read committed" "read write"]
  ∧ (Tx.runOk freshTx (List.replicate n beginOp ++ List.replicate i TxOp.commit)).1.level =
        (n : Int) - (i : Int)
  ∧ 0 < (n : Int) - (i : Int) := by
  obtain ⟨m, rfl⟩ : ∃ m, n = m + 1 := ⟨n - 1, by omega⟩
  have hbeg := Tx.runOk_beginFresh m
  have hfull : Tx.runOk freshTx
      (List.replicate (m + 1) beginOp ++ List.replicate (m + 1) TxOp.commit) =
      (⟨0, none⟩, [PhysOp.begin "read committed" "read write", PhysOp.commit],
        List.replicate ((m + 1) + (m + 1)) (none : Option String)) := by
    rw [Tx.runOk_append, hbeg]
    simp only
    rw [List.replicate_succ' m TxOp.commit, Tx.runOk_append,
      Tx.runOk_commitRep m (1 + (m : Int)) (by omega) (some ())]
    simp only
    rw [Tx.runOk_commitLast (1 + (m : Int) - (m : Int)) (some ()) (by omega)]
    simp [List.replicate_add, List.replicate_succ']
  have hpart : Tx.runOk freshTx
      (List.replicate (m + 1) beginOp ++ List.replicate i TxOp.commit) =
      (⟨1 + (m : Int) - (i : Int), some ()⟩,
        [PhysOp.begin "read committed" "read write"],
        List.replicate ((m + 1) + i) (none : Option String)) := by
    rw [Tx.runOk_append, hbeg]
    simp only
    rw [Tx.runOk_commitRep i (1 + (m : Int)) (by omega) (some ())]
    simp [List.replicate_add]
  refine ⟨?_, ?_, ?_, ?_, ?_, ?_⟩
  · rw [hfull]
  · rw [hfull]; rfl
  · rw [hfull]
  · rw [hpart]
  · rw [hpart]; simp [Tx.level]; omega
  · omega

/-- Witness for C5 at N = 2, i = 1. -/
theorem c5_nesting_symmetry_witness :
    (Tx.runOk freshTx (List.replicate 2 beginOp ++ List.replicate 2 TxOp.commit)).2.1 =
        [PhysOp.begin "read committed" "read write", PhysOp.commit]
  ∧ (Tx.runOk freshTx (List.replicate 2 beginOp ++ List.replicate 2 TxOp.commit)).1.level = 0
  ∧ (Tx.runOk freshTx (List.replicate 2 beginOp ++ List.replicate 2 TxOp.commit)).2.2 =
        List.replicate (2 + 2) (none : Option String)
  ∧ (Tx.runOk freshTx (List.replicate 2 beginOp ++ List.replicate 1 TxOp.commit)).2.1 =
        [PhysOp.begin "read committed" "read write"]
  ∧ (Tx.runOk freshTx (List.replicate 2 beginOp ++ List.replicate 1 TxOp.commit)).1.level =
        ((2 : Nat) : Int) - ((1 : Nat) : Int)
  ∧ 0 < ((2 : Nat) : Int) - ((1 : Nat) : Int) := by
  have h := c5_nesting_symmetry 2 1 (by omega) (by omega)
  simpa using h

/-- Claim C6: after k ≥ 1 successful `Begin` calls, one `Rollback` issues
the physical rollback and resets the state (level 0, no handle); any
subsequent `Commit` or `Rollback` on that `Tx` fails with the
no-active-transaction error, issuing nothing and changing nothing. -/
theorem c6_rollback_supersedes (k : Nat) (d : Option String) (hk : 1 ≤ k) :
    (Tx.runOk freshTx (List.replicate k beginOp ++ [TxOp.rollback])).1 = freshTx
  ∧ (Tx.runOk freshTx (List.replicate k beginOp ++ [TxOp.rollback])).2.1 =
      [PhysOp.begin "read committed" "read write", PhysOp.rollback]
  ∧ (Tx.runOk freshTx (List.replicate k beginOp ++ [TxOp.rollback])).2.2 =
      List.replicate (k + 1) (none : Option String)
  ∧ Tx.commit (Tx.runOk freshTx (List.replicate k beginOp ++ [TxOp.rollback])).1 d =
      ((Tx.runOk freshTx (List.replicate k beginOp ++ [TxOp.rollback])).1,
        some "no transaction to commit", [])
  ∧ Tx.rollback (Tx.runOk freshTx (List.replicate k beginOp ++ [TxOp.rollback])).1 d =
      ((Tx.runOk freshTx (List.replicate k beginOp ++ [TxOp.rollback])).1,
        some "no transaction to rollback", []) := by
  obtain ⟨m, rfl⟩ : ∃ m, k = m + 1 := ⟨k - 1, by omega⟩
  have hrun : Tx.runOk freshTx (List.replicate (m + 1) beginOp ++ [TxOp.rollback]) =
      (freshTx, [PhysOp.begin "read committed" "read write", PhysOp.rollback],
        List.replicate ((m + 1) + 1) (none : Option String)) := by
    rw [Tx.runOk_append, Tx.runOk_beginFresh m]
    simp only
    have hroll : Tx.runOk ⟨1 + (m : Int), some ()⟩ [TxOp.rollback] =
        (freshTx, [PhysOp.rollback], [none]) := by
      have hne : ¬ ((1 + (m : Int)) = 0) := by omega
      simp [Tx.runOk, Tx.step, Tx.rollback, hne, freshTx]
    rw [hroll]
    simp [List.replicate_add]
  refine ⟨?_, ?_, ?_, ?_, ?_⟩
  · rw [hrun]
  · rw [hrun]
  · rw [hrun]
  · rw [hrun]; simp [Tx.commit, freshTx]
  · rw [hrun]; simp [Tx.rollback, freshTx]

/-- Witness for C6 at k = 2 (Scenario C shape: Begin, Begin, Rollback,
then the trailing Commit fails). -/
theorem c6_rollback_supersedes_witness :
    (Tx.runOk freshTx (List.replicate 2 beginOp ++ [TxOp.rollback])).1 = freshTx
  ∧ (Tx.runOk freshTx (List.replicate 2 beginOp ++ [TxOp.rollback])).2.1 =
      [PhysOp.begin "read committed" "read write", PhysOp.rollback]
  ∧ (Tx.runOk freshTx (List.replicate 2 beginOp ++ [TxOp.rollback])).2.2 =
      List.replicate (2 + 1) (none : Option String)
  ∧ Tx.commit (Tx.runOk freshTx (List.replicate 2 beginOp ++ [TxOp.rollback])).1 none =
      ((Tx.runOk freshTx (List.replicate 2 beginOp ++ [TxOp.rollback])).1,
        some "no transaction to commit", [])
  ∧ Tx.rollback (Tx.runOk freshTx (List.replicate 2 beginOp ++ [TxOp.rollback])).1 none =
      ((Tx.runOk freshTx (List.replicate 2 beginOp ++ [TxOp.rollback])).1,
        some "no transaction to rollback", []) :=
  c6_rollback_supersedes 2 none (by omega)

/-- Claim C7: `Commit` or `Rollback` on a `Tx` at level 0 returns the
no-active-transaction error as an ordinary error value, issues no
physical operation, and leaves the state (hence the level) unchanged. -/
theorem c7_no_active_transaction (t : Tx) (d : Option String) (h : t.level = 0) :
    Tx.commit t d = (t, some "no transaction to commit", [])
  ∧ Tx.rollback t d = (t, some "no transaction to rollback", []) := by
  have hc : t.counter = 0 := h
  constructor
  · simp [Tx.commit, hc]
  · simp [Tx.rollback, hc]

/-- Witness for C7 at the fresh manager. -/
theorem c7_no_active_transaction_witness :
    Tx.commit freshTx none = (freshTx, some "no transaction to commit", [])
  ∧ Tx.rollback freshTx none = (freshTx, some "no transaction to rollback", []) :=
  c7_no_active_transaction freshTx none (by decide)

/-- The invariant spelled out on a literal state. -/
theorem Tx.inv_mk (c : Int) (hh : Option Unit) :
    Tx.inv ⟨c, hh⟩ ↔ (0 ≤ c ∧ (hh.isSome = true ↔ 0 < c)) := Iff.rfl

/-- Claim C8: every operation (begin at any isolation level and access
mode, commit, rollback, each with any driver outcome) preserves the
invariant that the physical handle is present exactly when the nesting
counter is positive; moreover a failed first `Begin` leaves the fresh
state unchanged (counter 0, no handle) while reporting the driver
error. -/
theorem c8_handle_invariant (t : Tx) (op : TxOp) (d : Option String)
    (iso mode e : String) (h : t.inv) :
    (Tx.step t op d).1.inv
  ∧ Tx.beginTx freshTx iso mode (some e) =
      (freshTx, some e, [PhysOp.begin iso mode]) := by
  constructor
  · obtain ⟨hc, hs⟩ := h
    cases t with
    | mk c hh =>
      simp only at hc hs
      have hnone0 : ¬ 0 < c → hh = none := by
        intro hp
        cases hh with
        | none => rfl
        | some u => exact absurd (hs.mp rfl) hp
      cases op with
      | begin iso2 mode2 =>
          by_cases hpos : 0 < c
          · have hsome : hh.isSome = true := hs.mpr hpos
            have hst : (Tx.step ⟨c, hh⟩ (TxOp.begin iso2 mode2) d).1 = ⟨c + 1, hh⟩ := by
              simp [Tx.step, Tx.beginTx, hpos]
            rw [hst, Tx.inv_mk]
            exact ⟨by omega, Iff.intro (fun _ => by omega) (fun _ => hsome)⟩
          · have hn : hh = none := hnone0 hpos
            have hz : c = 0 := by omega
            subst hz
            subst hn
            cases d with
            | none =>
                have hst : (Tx.step ⟨0, none⟩ (TxOp.begin iso2 mode2) none).1 =
                    ⟨1, some ()⟩ := by
                  simp [Tx.step, Tx.beginTx]
                rw [hst, Tx.inv_mk]
                exact ⟨by omega, by simp⟩
            | some er =>
                have hst : (Tx.step ⟨0, none⟩ (TxOp.begin iso2 mode2) (some er)).1 =
                    ⟨0, none⟩ := by
                  simp [Tx.step, Tx.beginTx]
                rw [hst, Tx.inv_mk]
                exact ⟨by omega, by simp⟩
      | commit =>
          by_cases hz : c = 0
          · subst hz
            have hn : hh = none := hnone0 (by omega)
            subst hn
            have hst : (Tx.step ⟨0, none⟩ TxOp.commit d).1 = ⟨0, none⟩ := by
              simp [Tx.step, Tx.commit]
            rw [hst, Tx.inv_mk]
            exact ⟨by omega, by simp⟩
          · have hpos : 0 < c := by omega
            have hsome : hh.isSome = true := hs.mpr hpos
            by_cases h1 : 0 < c - 1
            · have hst : (Tx.step ⟨c, hh⟩ TxOp.commit d).1 = ⟨c - 1, hh⟩ := by
                simp [Tx.step, Tx.commit, hz, h1]
              rw [hst, Tx.inv_mk]
              exact ⟨by omega, Iff.intro (fun _ => h1) (fun _ => hsome)⟩
            · have hst : (Tx.step ⟨c, hh⟩ TxOp.commit d).1 = ⟨c - 1, none⟩ := by
                simp [Tx.step, Tx.commit, hz, h1]
              rw [hst, Tx.inv_mk]
              exact ⟨by omega, by simp [h1]⟩
      | rollback =>
          by_cases hz : c = 0
          · subst hz
            have hn : hh = none := hnone0 (by omega)
            subst hn
            have hst : (Tx.step ⟨0, none⟩ TxOp.rollback d).1 = ⟨0, none⟩ := by
              simp [Tx.step, Tx.rollback]
            rw [hst, Tx.inv_mk]
            exact ⟨by omega, by simp⟩
          · have hst : (Tx.step ⟨c, hh⟩ TxOp.rollback d).1 = ⟨0, none⟩ := by
              simp [Tx.step, Tx.rollback, hz]
            rw [hst, Tx.inv_mk]
            exact ⟨by omega, by simp⟩
  · simp [Tx.beginTx, freshTx]

/-- Witness for C8: commit from depth 1 keeps the invariant; a failed
first begin with an explicit error is reported and changes nothing. -/
theorem c8_handle_invariant_witness :
    (Tx.step ⟨1, some ()⟩ TxOp.commit none).1.inv
  ∧ Tx.beginTx freshTx "read committed" "read write" (some "boom") =
      (freshTx, some "boom", [PhysOp.begin "read committed" "read write"]) :=
  c8_handle_invariant ⟨1, some ()⟩ TxOp.commit none
    "read committed" "read write" "boom" (by decide)

/-- Claim C1 (code bug evaluation): a successful `Exec` of a one-row
INSERT on a fresh pool-bound query returns no error, stores the command
tag whose parsed row count is 1 (and `IsCommand` holds), yet
`RowsAffected()` returns 0 — the implementation only consults the row
cursor and never the stored command tag, so the documented behaviour
(return the stored tag row count, here 1) is not what the code does. -/
theorem c1_exec_rowsAffected_eval :
    (Query.exec freshQuery ({ raw := "INSERT 0 1", rowsAffected := 1 }, none)).2 = none
  ∧ ((Query.exec freshQuery ({ raw := "INSERT 0 1", rowsAffected := 1 }, none)).1).tag.rowsAffected = 1
  ∧ Query.isCommand (Query.exec freshQuery ({ raw := "INSERT 0 1", rowsAffected := 1 }, none)).1 = true
  ∧ Query.rowsAffected (Query.exec freshQuery ({ raw := "INSERT 0 1", rowsAffected := 1 }, none)).1 = 0 := by
  refine ⟨rfl, rfl, by decide, rfl⟩

/-- Claim C10: for every driver-native numeric value (any integer or
floating-point width) in an existing non-null column, the `Bool`
accessor returns exactly the strict positivity of the value — zero and
negative numbers give false — with no error or abort. -/
theorem c10_bool_numeric_truthiness (q : Query) (f : String) (x : ℚ)
    (hc : q.contains f = true) (hx : (q.value f).numericValue = some x) :
    q.getBool f = .ok (decide (0 < x)) := by
  cases hv : q.value f <;> rw [hv] at hx <;>
    simp only [PgValue.numericValue, Option.some.injEq, reduceCtorEq] at hx <;>
    subst hx <;>
    simp [Query.getBool, hc, hv, decide_eq_decide, Int.cast_pos, Nat.cast_pos]

/-- Witness for C10 at a concrete negative bigint value. -/
theorem c10_bool_numeric_truthiness_witness :
    Query.getBool qNeg "x" = .ok (decide ((0 : ℚ) < ((-3 : Int) : ℚ))) :=
  c10_bool_numeric_truthiness qNeg "x" ((-3 : Int) : ℚ) (by decide) (by decide)

/-- Claim C3 counterexample: in the live state `q1` the single column is
literally named `x`; `Contains` accepts the upper-case spelling, but
`FieldType`/`FieldTypeName` resolve only the exact lower-case spelling
and return their sentinels for `X` — so name lookup is not
case-insensitive for every name-based operation, contradicting the claim
that `FieldType` and `FieldTypeName` agree across spellings. -/
theorem c3_case_insensitive_counterexample :
    Query.contains q1 "x" = true
  ∧ Query.contains q1 "X" = true
  ∧ Query.value q1 "X" = Query.value q1 "x"
  ∧ Query.fieldType envTest q1 "x" = int8OID
  ∧ Query.fieldType envTest q1 "X" = 0
  ∧ Query.fieldTypeName envTest q1 "x" = "int8"
  ∧ Query.fieldTypeName envTest q1 "X" = "" := by decide

/-- Claim C3 (amended): `Contains` and `Value` are case-insensitive —
any two spellings with the same lower-casing agree — while `FieldType`
and `FieldTypeName` look the supplied name up without lower-casing, so
any spelling that is not literally a stored (lower-cased) key yields the
sentinel 0 / empty string. -/
theorem c3_lookup_case_amended (q : Query) (env : Env) (s1 s2 s3 : String)
    (h12 : strToLower s1 = strToLower s2) (h3 : mapLookup q.fields s3 = none) :
    Query.contains q s1 = Query.contains q s2
  ∧ Query.value q s1 = Query.value q s2
  ∧ Query.fieldType env q s3 = 0
  ∧ Query.fieldTypeName env q s3 = "" := by
  refine ⟨?_, ?_, ?_, ?_⟩
  · simp [Query.contains, h12]
  · simp [Query.value, h12]
  · simp [Query.fieldType, h3]
  · simp [Query.fieldTypeName, h3]

/-- Witness for C3 (amended) at the mixed-case spelling `X` over `q1`. -/
theorem c3_lookup_case_amended_witness :
    Query.contains q1 "X" = Query.contains q1 "x"
  ∧ Query.value q1 "X" = Query.value q1 "x"
  ∧ Query.fieldType envTest q1 "X" = 0
  ∧ Query.fieldTypeName envTest q1 "X" = "" :=
  c3_lookup_case_amended q1 envTest "X" "x" "X" (by decide) (by decide)

/-- Claim C4 counterexample: in the live state `q1` the column exists
(`Contains "X"` holds via case-insensitive lookup) and its declared wire
type is bigint, not time-of-day; the claim requires the Duration
accessor to abort here, but because the exact-match `FieldType` lookup
misses the spelling `X` it resolves 0 and the accessor returns duration
0 with no abort. -/
theorem c4_duration_counterexample :
    Query.contains q1 "X" = true
  ∧ Query.fieldsFn q1 = [{ name := "x", dataTypeOID := int8OID }]
  ∧ int8OID ≠ timeOID
  ∧ Query.getDuration q1 envTest "X" = .ok 0 := by decide

/-- Claim C4 (amended): on an existing column, `Duration` returns 0
whenever the name-resolved field type is 0 (exact-name miss, closed
cursor, failed acquire, or unregistered OID); when it resolves to the
time-of-day OID it converts the underlying integer microseconds (in
range, 1000·ms nanoseconds — in particular scenario E: 3661000000
microseconds give 1h1m1s); it aborts exactly when the resolved type is a
nonzero non-time type. -/
theorem c4_duration_amended (q : Query) (env : Env) (f : String) (ms : Int)
    (hc : q.contains f = true) :
    (q.fieldType env f = 0 → q.getDuration env f = .ok 0)
  ∧ (q.fieldType env f = timeOID →
      q.getDuration env f = (q.getInt64 f).map (fun k => wrap64 (1000 * k)))
  ∧ (q.fieldType env f = timeOID → q.value f = .i64 ms →
      -two63 ≤ ms → ms < two63 → -two63 ≤ 1000 * ms → 1000 * ms < two63 →
      q.getDuration env f = .ok (1000 * ms))
  ∧ (q.fieldType env f ≠ 0 → q.fieldType env f ≠ timeOID →
      q.getDuration env f = .error ("can\x27t convert to time.Duration: " ++ f))
  ∧ Query.getDuration qTime envTest "x" = .ok 3661000000000
  ∧ (3661000000000 : Int) = ((1 * 3600 + 1 * 60 + 1) * 1000000000 : Int) := by
  refine ⟨?_, ?_, ?_, ?_, by decide, by norm_num⟩
  · intro h0
    simp [Query.getDuration, hc, h0]
  · intro ht
    simp [Query.getDuration, hc, ht, timeOID]
  · intro ht hv h1 h2 h3 h4
    have hInt64 : q.getInt64 f = .ok (wrap64 ms) := by
      simp [Query.getInt64, hc, hv, intConvertHelper, IntKind.conv]
    have hw2 : wrap64 ms = ms := by
      unfold wrap64 two63 at *
      omega
    have hwrap : wrap64 (1000 * ms) = 1000 * ms := by
      unfold wrap64 two63 at *
      omega
    simp [Query.getDuration, hc, ht, timeOID, hInt64, hw2, hwrap, Except.map]
  · intro hn0 hnt
    simp [Query.getDuration, hc, hn0, hnt]

/-- Witness for C4 (amended): the zero-resolved-type branch at the
mixed-case spelling over `q1`. -/
theorem c4_duration_amended_witness :
    Query.getDuration q1 envTest "X" = .ok 0 :=
  (c4_duration_amended q1 envTest "X" 0 (by decide)).1 (by decide)

/-- Claim C9 counterexample: in `qNull` the column `x` exists and its
underlying value is null, yet the `Duration` accessor aborts with a
conversion error (its declared-type check precedes any look at the
value, and the declared type is bigint) — so a null value does not
always yield the zero value for every typed accessor. -/
theorem c9_null_duration_counterexample :
    Query.contains qNull "x" = true
  ∧ Query.value qNull "x" = PgValue.null
  ∧ Query.getDuration qNull envTest "x" =
      .error ("can\x27t convert to time.Duration: x") := by decide

/-- Claim C9 (amended): on an existing column holding a null value,
every typed accessor except `Duration` returns its type's zero value
(0, false, zero rational, empty string, empty bytes, zero time, empty
sequence) with no error; `Duration` returns 0 exactly when the resolved
field type is 0 or the time-of-day OID, and aborts on any other resolved
type even though the value is null. -/
theorem c9_null_zero_amended (q : Query) (env : Env) (f : String)
    (hc : q.contains f = true) (hv : q.value f = PgValue.null) :
    q.getInt f = .ok 0
  ∧ q.getInt64 f = .ok 0
  ∧ q.getUInt64 f = .ok 0
  ∧ q.getBool f = .ok false
  ∧ q.getFloat64 env f = .ok 0
  ∧ q.getFloat32 env f = .ok 0
  ∧ q.getString env f = .ok ""
  ∧ q.getBytes f = .ok []
  ∧ q.getTime env f = .ok { nanos := 0 }
  ∧ q.getStringArray env f = .ok []
  ∧ q.getTimeArray env f = .ok []
  ∧ q.getIntArray f = .ok []
  ∧ q.getIntArray64 f = .ok []
  ∧ (q.fieldType env f = 0 → q.getDuration env f = .ok 0)
  ∧ (q.fieldType env f = timeOID → q.getDuration env f = .ok 0)
  ∧ (q.fieldType env f ≠ 0 → q.fieldType env f ≠ timeOID →
      q.getDuration env f = .error ("can\x27t convert to time.Duration: " ++ f)) := by
  refine ⟨?_, ?_, ?_, ?_, ?_, ?_, ?_, ?_, ?_, ?_, ?_, ?_, ?_, ?_, ?_, ?_⟩
  · simp [Query.getInt, hc, hv]
  · simp [Query.getInt64, hc, hv]
  · simp [Query.getUInt64, hc, hv]
  · simp [Query.getBool, hc, hv]
  · simp [Query.getFloat64, hc, hv]
  · simp [Query.getFloat32, Query.getFloat64, hc, hv, float32of, Except.map]
  · simp [Query.getString, hc, hv]
  · simp [Query.getBytes, hc, hv]
  · simp [Query.getTime, hc, hv]
  · simp [Query.getStringArray, hc, hv]
  · simp [Query.getTimeArray, hc, hv]
  · simp [Query.getIntArray, hc, hv]
  · simp [Query.getIntArray64, hc, hv]
  · intro h0
    simp [Query.getDuration, hc, h0]
  · intro ht
    have hInt64 : q.getInt64 f = .ok 0 := by simp [Query.getInt64, hc, hv]
    simp [Query.getDuration, hc, ht, timeOID, hInt64, Except.map]
    norm_num [wrap64, two63]
  · intro hn0 hnt
    simp [Query.getDuration, hc, hn0, hnt]

/-- Witness for C9 (amended): the null bigint column of `qNull`. -/
theorem c9_null_zero_amended_witness :
    Query.getInt qNull "x" = .ok 0 :=
  (c9_null_zero_amended qNull envTest "x" (by decide) (by decide)).1

/-- Claim C2 counterexample: `qSel` has produced a row, `Next` advanced
once to `q1`; immediately before `Close` the index-based and type
accessors return real results, immediately after `Close` they return
their absent-sentinels ("" / null / 0), because each of them guards on a
live cursor before ever consulting the snapshot — so not every accessor
returns identical results across `Close`. -/
theorem c2_close_snapshot_counterexample :
    Query.next qSel = (q1, true)
  ∧ Query.fieldName q1 0 = "x"
  ∧ Query.fieldName ((Query.close q1).1) 0 = ""
  ∧ Query.valueIndex q1 0 = PgValue.i64 5
  ∧ Query.valueIndex ((Query.close q1).1) 0 = PgValue.null
  ∧ Query.fieldType envTest q1 "x" = int8OID
  ∧ Query.fieldType envTest ((Query.close q1).1) "x" = 0 := by decide

/-- Claim C2 (amended): after a `Select` with a live cursor (non-empty
column directory, no pending `Values` error), `Close` does preserve the
results of `Fields`, `Values`, `Contains`, `Value`, and of every typed
accessor that reads through them (`Int`, `Int64`, `UInt64`, `Bool`,
`Float32/64`, `String`, `Bytes`, `Time`, `StringArray`, `TimeArray`,
`IntArray`, `IntArray64`) — while `FieldName`, `FieldTypeIndex`,
`FieldTypeNameIndex`, `FieldType`, `FieldTypeName`, `ValueIndex` and
`Duration` guard on the live cursor and are not preserved (shown in the
counterexample). -/
theorem c2_close_snapshot_amended (q : Query) (r : Rows) (env : Env) (f : String)
    (hq : q.rows = some r) (hverr : r.valuesErr = none) (hd : r.descs ≠ []) :
    Query.fieldsFn ((Query.close q).1) = Query.fieldsFn q
  ∧ Query.valuesFn ((Query.close q).1) = Query.valuesFn q
  ∧ Query.contains ((Query.close q).1) f = Query.contains q f
  ∧ Query.value ((Query.close q).1) f = Query.value q f
  ∧ Query.getInt ((Query.close q).1) f = Query.getInt q f
  ∧ Query.getInt64 ((Query.close q).1) f = Query.getInt64 q f
  ∧ Query.getUInt64 ((Query.close q).1) f = Query.getUInt64 q f
  ∧ Query.getBool ((Query.close q).1) f = Query.getBool q f
  ∧ Query.getFloat64 ((Query.close q).1) env f = Query.getFloat64 q env f
  ∧ Query.getFloat32 ((Query.close q).1) env f = Query.getFloat32 q env f
  ∧ Query.getString ((Query.close q).1) env f = Query.getString q env f
  ∧ Query.getBytes ((Query.close q).1) f = Query.getBytes q f
  ∧ Query.getTime ((Query.close q).1) env f = Query.getTime q env f
  ∧ Query.getStringArray ((Query.close q).1) env f = Query.getStringArray q env f
  ∧ Query.getTimeArray ((Query.close q).1) env f = Query.getTimeArray q env f
  ∧ Query.getIntArray ((Query.close q).1) f = Query.getIntArray q f
  ∧ Query.getIntArray64 ((Query.close q).1) f = Query.getIntArray64 q f := by
  have hlen : ¬ (r.descs.length = 0) := by
    simpa [List.length_eq_zero] using hd
  cases q with
  | mk rows tag flds lv ld =>
    simp only at hq
    subst hq
    have hcl : (Query.close ⟨some r, tag, flds, lv, ld⟩).1 =
        ⟨none, tag, flds, r.current, r.descs⟩ := by
      simp [Query.close, Rows.values, hverr]
    rw [hcl]
    have hFields : Query.fieldsFn ⟨none, tag, flds, r.current, r.descs⟩ =
        Query.fieldsFn ⟨some r, tag, flds, lv, ld⟩ := by
      simp [Query.fieldsFn, hlen]
    have hValues : Query.valuesFn ⟨none, tag, flds, r.current, r.descs⟩ =
        Query.valuesFn ⟨some r, tag, flds, lv, ld⟩ := by
      simp [Query.valuesFn, hlen, Rows.values, hverr]
    have hContains : ∀ g, Query.contains ⟨none, tag, flds, r.current, r.descs⟩ g =
        Query.contains ⟨some r, tag, flds, lv, ld⟩ g := by
      intro g
      simp [Query.contains]
    have hValue : ∀ g, Query.value ⟨none, tag, flds, r.current, r.descs⟩ g =
        Query.value ⟨some r, tag, flds, lv, ld⟩ g := by
      intro g
      simp only [Query.value]
      rw [hValues]
    have hInt : Query.getInt ⟨none, tag, flds, r.current, r.descs⟩ f =
        Query.getInt ⟨some r, tag, flds, lv, ld⟩ f := by
      simp only [Query.getInt]
      rw [hContains f, hValue f]
    have hInt64 : Query.getInt64 ⟨none, tag, flds, r.current, r.descs⟩ f =
        Query.getInt64 ⟨some r, tag, flds, lv, ld⟩ f := by
      simp only [Query.getInt64]
      rw [hContains f, hValue f]
    have hUInt64 : Query.getUInt64 ⟨none, tag, flds, r.current, r.descs⟩ f =
        Query.getUInt64 ⟨some r, tag, flds, lv, ld⟩ f := by
      simp only [Query.getUInt64]
      rw [hContains f, hValue f]
    have hBool : Query.getBool ⟨none, tag, flds, r.current, r.descs⟩ f =
        Query.getBool ⟨some r, tag, flds, lv, ld⟩ f := by
      simp only [Query.getBool]
      rw [hContains f, hValue f]
    have hFloat64 : Query.getFloat64 ⟨none, tag, flds, r.current, r.descs⟩ env f =
        Query.getFloat64 ⟨some r, tag, flds, lv, ld⟩ env f := by
      simp only [Query.getFloat64]
      rw [hContains f, hValue f]
    have hFloat32 : Query.getFloat32 ⟨none, tag, flds, r.current, r.descs⟩ env f =
        Query.getFloat32 ⟨some r, tag, flds, lv, ld⟩ env f := by
      simp only [Query.getFloat32]
      rw [hFloat64]
    have hString : Query.getString ⟨none, tag, flds, r.current, r.descs⟩ env f =
        Query.getString ⟨some r, tag, flds, lv, ld⟩ env f := by
      simp only [Query.getString]
      rw [hContains f, hValue f]
    have hBytes : Query.getBytes ⟨none, tag, flds, r.current, r.descs⟩ f =
        Query.getBytes ⟨some r, tag, flds, lv, ld⟩ f := by
      simp only [Query.getBytes]
      rw [hContains f, hValue f]
    have hTime : Query.getTime ⟨none, tag, flds, r.current, r.descs⟩ env f =
        Query.getTime ⟨some r, tag, flds, lv, ld⟩ env f := by
      simp only [Query.getTime]
      rw [hContains f, hValue f]
    have hStringArray : Query.getStringArray ⟨none, tag, flds, r.current, r.descs⟩ env f =
        Query.getStringArray ⟨some r, tag, flds, lv, ld⟩ env f := by
      simp only [Query.getStringArray]
      rw [hContains f, hValue f, hString]
    have hTimeArray : Query.getTimeArray ⟨none, tag, flds, r.current, r.descs⟩ env f =
        Query.getTimeArray ⟨some r, tag, flds, lv, ld⟩ env f := by
      simp only [Query.getTimeArray]
      rw [hContains f, hValue f, hTime]
    have hIntArrayHelper : Query.intArrayHelper ⟨none, tag, flds, r.current, r.descs⟩ f =
        Query.intArrayHelper ⟨some r, tag, flds, lv, ld⟩ f := by
      simp only [Query.intArrayHelper]
      rw [hContains f, hValue f, hInt]
    have hIntArray : Query.getIntArray ⟨none, tag, flds, r.current, r.descs⟩ f =
        Query.getIntArray ⟨some r, tag, flds, lv, ld⟩ f := by
      simp only [Query.getIntArray]
      rw [hContains f, hValue f, hIntArrayHelper]
    have hIntArray64 : Query.getIntArray64 ⟨none, tag, flds, r.current, r.descs⟩ f =
        Query.getIntArray64 ⟨some r, tag, flds, lv, ld⟩ f := by
      simp only [Query.getIntArray64]
      rw [hContains f, hValue f, hIntArrayHelper]
    exact ⟨hFields, hValues, hContains f, hValue f, hInt, hInt64, hUInt64, hBool,
      hFloat64, hFloat32, hString, hBytes, hTime, hStringArray, hTimeArray,
      hIntArray, hIntArray64⟩

/-- Witness for C2 (amended) over the concrete advanced state `q1`. -/
theorem c2_close_snapshot_amended_witness :
    Query.fieldsFn ((Query.close q1).1) = Query.fieldsFn q1 :=
  (c2_close_snapshot_amended q1 rows1 envTest "x" (by decide) (by decide)
    (by decide)).1
